import Mathlib

/-!
Verification of the nutrition-adequacy application.

The repository is a React client (frontend/src/App.jsx) talking to a
FastAPI backend (backend/main.py, not present in the sources; only its
routes, deployment docs and the client are).  Client-side logic is
embedded directly from App.jsx; the backend Adequacy Evaluator,
Requirement Model and History Log are modelled from the specification.
Numbers are modelled as exact rationals; JavaScript numbers that can be
NaN or infinite are modelled by the type JSNum.
-/

/-- Model of a JavaScript number as produced by Number(...): either a
finite value (a rational) or one of the non-finite values NaN, +Infinity,
-Infinity. -/
inductive JSNum
  | nan
  | posInf
  | negInf
  | num (q : ℚ)
deriving DecidableEq

/-- Number.isFinite: true exactly on finite numbers. -/
def JSNum.isFinite : JSNum → Bool
  | .num _ => true
  | _ => false

/-- The JavaScript comparison g > 0: false on NaN and -Infinity, true on
+Infinity, and the numeric comparison on finite values. -/
def JSNum.gtZero : JSNum → Bool
  | .num q => decide (0 < q)
  | .posInf => true
  | _ => false

/-- The finite value of a JSNum (0 on non-finite values; only used on
branches where the value is known finite). -/
def JSNum.toRat : JSNum → ℚ
  | .num q => q
  | _ => 0

/-- App.jsx handlePredict, line `acc[f] = Number.isFinite(g) && g > 0 ? g : 100`:
a gram value that is finite and strictly positive is kept, anything else
becomes 100. -/
def normalizeGram (g : JSNum) : ℚ :=
  if g.isFinite && g.gtZero then g.toRat else 100

/-- App.jsx handlePredict, the reduce building food_grams from the selected
foods: each selected food f maps to the normalization of gramsByFood[f],
with a missing entry defaulting to 100 (the `?? 100`). -/
def handlePredictFoodGrams (selectedFoods : List String)
    (gramsByFood : String → Option JSNum) : List (String × ℚ) :=
  selectedFoods.map (fun f => (f, normalizeGram ((gramsByFood f).getD (JSNum.num 100))))

/-- The five tracked nutrients of NutrientTotals. -/
inductive Nutrient
  | protein_g
  | iron_mg
  | b12_mcg
  | omega3_g
  | cal_kcal
deriving DecidableEq, Fintype

/-- The tracked nutrients as a list, used to build the deficits mapping. -/
def Nutrient.all : List Nutrient :=
  [.protein_g, .iron_mg, .b12_mcg, .omega3_g, .cal_kcal]

/-- The adequacy classification of a prediction. -/
inductive Status
  | Adequate
  | Deficient
deriving DecidableEq

/-- Validation errors of the Adequacy Evaluator. -/
inductive EvalError
  | EmptySelection
  | UnknownFood (name : String)
deriving DecidableEq

/-- The Nutrient Table: per-100g nutrient vector for each known food name,
as an association list. -/
abbrev NutrientTable := List (String × (Nutrient → ℚ))

/-- Lookup of a key in an association list (first matching entry). -/
def lookupStr {α : Type} (l : List (String × α)) (k : String) : Option α :=
  (l.find? (fun e => e.1 == k)).map (fun e => e.2)

/-- Resolution of a food name in the Nutrient Table. -/
def lookupFood (tbl : NutrientTable) (name : String) : Option (Nutrient → ℚ) :=
  lookupStr tbl name

/-- Modelled from the spec: the contribution of one (food, grams) entry in
the backend Adequacy Evaluator (backend/main.py is not in the sources) —
the food's per-100g nutrient vector scaled by grams/100, or none when the
food does not resolve. -/
def contrib (tbl : NutrientTable) (e : String × ℚ) : Option (Nutrient → ℚ) :=
  (lookupFood tbl e.1).map (fun v n => v n * (e.2 / 100))

/-- Modelled from the spec: the NutrientTotals accumulation of the backend
Adequacy Evaluator — a plain vector sum of the per-entry contributions. -/
def totalsOf (tbl : NutrientTable) (fg : List (String × ℚ)) : Nutrient → ℚ :=
  (fg.filterMap (contrib tbl)).sum

/-- Modelled from the spec: the validation scan of the backend Adequacy
Evaluator for a food name absent from the Nutrient Table; yields the first
offending key. -/
def firstUnknown (tbl : NutrientTable) (fg : List (String × ℚ)) : Option String :=
  (fg.find? (fun e => (lookupFood tbl e.1).isNone)).map (fun e => e.1)

/-- Modelled from the spec: the deficits mapping of the backend Adequacy
Evaluator — a nutrient appears iff its total is strictly below its
requirement, with the exact (unrounded) shortfall. -/
def deficitsOf (totals reqs : Nutrient → ℚ) : List (Nutrient × ℚ) :=
  Nutrient.all.filterMap
    (fun n => if totals n < reqs n then some (n, reqs n - totals n) else none)

/-- Modelled from the spec: the status classification of the backend
Adequacy Evaluator — Adequate exactly when there is no deficit. -/
def statusOf (deficits : List (Nutrient × ℚ)) : Status :=
  if deficits.isEmpty then .Adequate else .Deficient

/-- The result of one adequacy evaluation. -/
structure PredictionRecord where
  status : Status
  totals : Nutrient → ℚ
  requirements : Nutrient → ℚ
  deficits : List (Nutrient × ℚ)
deriving DecidableEq

/-- Modelled from the spec: the backend Adequacy Evaluator
evaluate(weight, food_grams) (backend/main.py is not in the sources).
The Requirement Model is passed as a parameter reqModel, since the spec
leaves its per-nutrient coefficients to an external reference dataset.
An empty selection and an unresolved food name are validation errors;
otherwise totals are the vector sum of scaled contributions, requirements
come from the Requirement Model at the given weight, and deficits and
status are derived from the comparison. -/
def evaluate (tbl : NutrientTable) (reqModel : ℚ → Nutrient → ℚ)
    (weight : ℚ) (fg : List (String × ℚ)) : Except EvalError PredictionRecord :=
  if fg.isEmpty then .error .EmptySelection
  else
    match firstUnknown tbl fg with
    | some f => .error (.UnknownFood f)
    | none =>
      let totals := totalsOf tbl fg
      let reqs := reqModel weight
      let defs := deficitsOf totals reqs
      .ok ⟨statusOf defs, totals, reqs, defs⟩

/-- The kinds of history items. -/
inductive HistKind
  | search
  | predict
deriving DecidableEq

/-- One entry of the per-user History Log (payload kept abstract as its
serialized form; the queries verified here never inspect it). -/
structure HistoryItem where
  owner : String
  kind : HistKind
  payload : String
  created_at : ℕ
deriving DecidableEq

/-- Does an item pass the optional kind filter of a history query? -/
def matchesKind (kf : Option HistKind) (it : HistoryItem) : Bool :=
  match kf with
  | none => true
  | some k => it.kind == k

/-- Newest-first ordering on history items. -/
def histRel (a b : HistoryItem) : Prop := b.created_at ≤ a.created_at

instance : DecidableRel histRel := fun a b => Nat.decLe b.created_at a.created_at

instance : IsTotal HistoryItem histRel :=
  ⟨fun a b => le_total b.created_at a.created_at⟩

instance : IsTrans HistoryItem histRel :=
  ⟨fun _ _ _ hab hbc => le_trans hbc hab⟩

/-- Modelled from the spec: the backend History Log query
(backend/main.py is not in the sources) — keep only the items of the
given owner that pass the optional kind filter, order them newest first,
and truncate to the given limit. The owner filter is applied at the
storage-query level, before any truncation. -/
def queryHistory (store : List HistoryItem) (owner : String)
    (kf : Option HistKind) (limit : ℕ) : List HistoryItem :=
  (List.insertionSort histRel
      (store.filter (fun it => it.owner == owner && matchesKind kf it))).take limit

/-- Modelled from the spec: the observed default limit of a history query
is 50 (the client at App.jsx line 250 always passes limit 50). -/
def defaultLimit : ℕ := 50

/-- Modelled from the spec: a history query issued without an explicit
limit uses the default limit. -/
def queryHistoryDefault (store : List HistoryItem) (owner : String)
    (kf : Option HistKind) : List HistoryItem :=
  queryHistory store owner kf defaultLimit

/-- App.jsx HistoryPage: the query parameters sent for a kind tab —
limit is always 50 and the kind parameter is omitted on the All tab. -/
def clientHistoryKindParam (kind : String) : Option HistKind :=
  if kind == "all" then none
  else if kind == "predict" then some .predict
  else if kind == "search" then some .search
  else none

/-- The request body of POST /predict. -/
structure PredictBody where
  weight : ℚ
  food_grams : List (String × ℚ)

/-- The request body of the legacy POST /calculate (extra foods list). -/
structure CalculateBody where
  weight : ℚ
  foods : List String
  food_grams : List (String × ℚ)

/-- Modelled from the spec: the POST /predict route of the backend
(backend/main.py is not in the sources) — it evaluates the body's weight
and food_grams. -/
def predictRoute (tbl : NutrientTable) (reqModel : ℚ → Nutrient → ℚ)
    (b : PredictBody) : Except EvalError PredictionRecord :=
  evaluate tbl reqModel b.weight b.food_grams

/-- Modelled from the spec: the legacy POST /calculate route of the
backend (backend/main.py is not in the sources) — accepted as a fallback
with equivalent semantics: the extra foods list is redundant with the
keys of food_grams and the evaluation is the same. -/
def calculateRoute (tbl : NutrientTable) (reqModel : ℚ → Nutrient → ℚ)
    (b : CalculateBody) : Except EvalError PredictionRecord :=
  evaluate tbl reqModel b.weight b.food_grams

/-- Outcome of one HTTP call as seen by the client: a response body or a
thrown error. -/
inductive ApiOutcome (α : Type)
  | ok (data : α)
  | failed
deriving DecidableEq

/-- App.jsx handlePredict lines 513-528: the client posts to /predict
first; only when that call throws does it post to /calculate and use its
outcome. -/
def clientPredictData {α : Type} (predictOutcome calculateOutcome : ApiOutcome α) :
    ApiOutcome α :=
  match predictOutcome with
  | .ok d => .ok d
  | .failed => calculateOutcome

/-- Removal of leading whitespace characters from a character list. -/
def dropLeadingWs : List Char → List Char
  | [] => []
  | c :: cs => if c.isWhitespace then dropLeadingWs cs else c :: cs

/-- The JavaScript String.prototype.trim: strip whitespace from both ends. -/
def jsTrim (s : String) : String :=
  ⟨(dropLeadingWs (dropLeadingWs s.data.reverse).reverse)⟩

/-- The JavaScript String.prototype.toLowerCase: lowercase every character. -/
def jsToLower (s : String) : String :=
  ⟨s.data.map Char.toLower⟩

/-- Outcome of App.jsx saveSearchOnEnter: whether a POST /history append
was attempted, the lastSavedSearch state afterwards, and any error
surfaced to the user. -/
structure SaveSearchOutcome where
  attempted : Bool
  lastSaved : String
  surfacedError : Option String
deriving DecidableEq

/-- App.jsx saveSearchOnEnter: trim the query; bail out silently when the
session is unauthenticated, the trimmed query is shorter than 2, or it
equals the last saved search case-insensitively; otherwise post it,
record it as last saved on success, and ignore a failure (empty catch). -/
def saveSearchOnEnter (isAuthed : Bool) (lastSavedSearch searchTerm : String)
    (postSucceeds : Bool) : SaveSearchOutcome :=
  let q := jsTrim searchTerm
  if !isAuthed then ⟨false, lastSavedSearch, none⟩
  else if q.length < 2 then ⟨false, lastSavedSearch, none⟩
  else if jsToLower q == jsToLower lastSavedSearch then ⟨false, lastSavedSearch, none⟩
  else if postSucceeds then ⟨true, q, none⟩
  else ⟨true, lastSavedSearch, none⟩

/-- App.jsx lines 663-667: the keydown handler of the search input calls
saveSearchOnEnter exactly on the Enter key. -/
def searchKeyDown (key : String) (isAuthed : Bool) (lastSavedSearch searchTerm : String)
    (postSucceeds : Bool) : SaveSearchOutcome :=
  if key == "Enter" then saveSearchOnEnter isAuthed lastSavedSearch searchTerm postSucceeds
  else ⟨false, lastSavedSearch, none⟩

/-- The dashboard selection state of App.jsx: the selectedFoods list and
the gramsByFood object (a partial map from food name to the entered
JavaScript number). -/
structure DashState where
  selectedFoods : List String
  gramsByFood : String → Option JSNum

/-- App.jsx toggleFoodSelection: membership toggle on selectedFoods; the
grams entry of the food is initialized to 100 when absent (next[food] ==
null) and kept unchanged otherwise. -/
def toggleFoodSelection (s : DashState) (food : String) : DashState :=
  ⟨if food ∈ s.selectedFoods then s.selectedFoods.filter (fun f => f != food)
   else s.selectedFoods ++ [food],
   fun f =>
     if f = food then
       match s.gramsByFood food with
       | none => some (JSNum.num 100)
       | some v => some v
     else s.gramsByFood f⟩

/-- App.jsx removeSelected: drop the food from selectedFoods and delete
its gramsByFood entry. -/
def removeSelected (s : DashState) (food : String) : DashState :=
  ⟨s.selectedFoods.filter (fun f => f != food),
   fun f => if f = food then none else s.gramsByFood f⟩

/-- App.jsx setFoodGrams: overwrite the grams entry of the food, leaving
selectedFoods unchanged. -/
def setFoodGrams (s : DashState) (food : String) (grams : JSNum) : DashState :=
  ⟨s.selectedFoods, fun f => if f = food then some grams else s.gramsByFood f⟩

/-- App.jsx Clear button (lines 707-713): reset both selectedFoods and
gramsByFood to empty. -/
def clearSelection : DashState :=
  ⟨[], fun _ => none⟩

/-- The selection invariant: every selected food has a gramsByFood entry. -/
def SelInv (s : DashState) : Prop :=
  ∀ f ∈ s.selectedFoods, (s.gramsByFood f).isSome = true

deriving instance DecidableEq for Except

/-- Concrete per-100g vector used by test fixtures: 1 of every nutrient. -/
def sampleVec : Nutrient → ℚ := fun _ => 1

/-- Concrete one-food Nutrient Table used by test fixtures. -/
def tbl₀ : NutrientTable := [("rice", sampleVec)]

/-- Concrete Requirement Model used by test fixtures: every threshold 0. -/
def req₀ : ℚ → Nutrient → ℚ := fun _ _ => 0

/-- The PredictionRecord produced by evaluate on the fixture inputs. -/
def r₀ : PredictionRecord := ⟨Status.Adequate, fun _ => 3 / 2, fun _ => 0, []⟩

/-- Concrete rice vector of the spec scenario: 2.7 g protein per 100 g. -/
def riceVec : Nutrient → ℚ := fun n => if n = Nutrient.protein_g then 27 / 10 else 0

/-- Concrete egg vector of the spec scenario: 13 g protein per 100 g. -/
def eggVec : Nutrient → ℚ := fun n => if n = Nutrient.protein_g then 13 else 0

/-- Concrete two-food Nutrient Table of the spec scenario. -/
def tbl₁ : NutrientTable := [("rice", riceVec), ("egg", eggVec)]

/-- Concrete Requirement Model of the spec scenario: 48 g protein. -/
def req₁ : ℚ → Nutrient → ℚ := fun _ n => if n = Nutrient.protein_g then 48 else 0

/-- Every tracked nutrient is in the canonical list. -/
theorem Nutrient.mem_all (n : Nutrient) : n ∈ Nutrient.all := by
  cases n <;> simp [Nutrient.all]

/-- Characterization of membership in the deficits mapping. -/
theorem mem_deficitsOf (t q : Nutrient → ℚ) (n : Nutrient) (d : ℚ) :
    (n, d) ∈ deficitsOf t q ↔ t n < q n ∧ d = q n - t n := by
  unfold deficitsOf
  rw [List.mem_filterMap]
  constructor
  · rintro ⟨a, -, ha⟩
    by_cases hlt : t a < q a
    · rw [if_pos hlt] at ha
      obtain ⟨rfl, rfl⟩ : a = n ∧ q a - t a = d := by
        simpa using ha
      exact ⟨hlt, rfl⟩
    · rw [if_neg hlt] at ha
      exact absurd ha (by simp)
  · rintro ⟨hlt, rfl⟩
    exact ⟨n, Nutrient.mem_all n, by rw [if_pos hlt]⟩

/-- The status is Adequate exactly when the deficits list is empty. -/
theorem statusOf_adequate_iff (d : List (Nutrient × ℚ)) :
    statusOf d = Status.Adequate ↔ d = [] := by
  unfold statusOf
  cases d <;> simp

/-- Successful evaluation is exactly the non-empty, fully-resolved case,
and its record is built from totalsOf, the Requirement Model and
deficitsOf. -/
theorem evaluate_ok_inv (tbl : NutrientTable) (reqModel : ℚ → Nutrient → ℚ)
    (w : ℚ) (fg : List (String × ℚ)) (r : PredictionRecord)
    (h : evaluate tbl reqModel w fg = .ok r) :
    r = ⟨statusOf (deficitsOf (totalsOf tbl fg) (reqModel w)), totalsOf tbl fg,
      reqModel w, deficitsOf (totalsOf tbl fg) (reqModel w)⟩ := by
  unfold evaluate at h
  by_cases he : fg.isEmpty
  · rw [if_pos he] at h
    exact absurd h (by simp)
  · rw [if_neg he] at h
    cases hu : firstUnknown tbl fg with
    | some f =>
      rw [hu] at h
      exact absurd h (by simp)
    | none =>
      rw [hu] at h
      simpa using h.symm

/-- Claim C1: for every successful prediction result, a nutrient appears
in the deficits mapping iff its total is strictly below its requirement,
each recorded shortfall equals requirement minus total and is strictly
positive, and status is Adequate iff deficits is empty (any non-empty
deficits implies status Deficient). -/
theorem evaluate_deficits_invariant (tbl : NutrientTable)
    (reqModel : ℚ → Nutrient → ℚ) (w : ℚ) (fg : List (String × ℚ))
    (r : PredictionRecord) (h : evaluate tbl reqModel w fg = .ok r) :
    (∀ n : Nutrient, (∃ d, (n, d) ∈ r.deficits) ↔ r.totals n < r.requirements n) ∧
    (∀ n d, (n, d) ∈ r.deficits → d = r.requirements n - r.totals n ∧ 0 < d) ∧
    (r.status = Status.Adequate ↔ r.deficits = []) ∧
    (r.deficits ≠ [] → r.status = Status.Deficient) := by
  obtain rfl := evaluate_ok_inv tbl reqModel w fg r h
  refine ⟨?_, ?_, ?_, ?_⟩
  · intro n
    constructor
    · rintro ⟨d, hd⟩
      exact ((mem_deficitsOf _ _ _ _).mp hd).1
    · intro hlt
      exact ⟨_, (mem_deficitsOf _ _ _ _).mpr ⟨hlt, rfl⟩⟩
  · intro n d hd
    obtain ⟨hlt, rfl⟩ := (mem_deficitsOf _ _ _ _).mp hd
    exact ⟨rfl, by linarith⟩
  · exact statusOf_adequate_iff _
  · intro hne
    rcases hd : deficitsOf (totalsOf tbl fg) (reqModel w) with - | ⟨a, l⟩
    · exact absurd hd hne
    · simp only [statusOf, hd, List.isEmpty_cons]
      rfl

/-- Totals of the one-food fixture: 150 g of rice at 1 per 100 g. -/
theorem fixture_totals : totalsOf tbl₀ [("rice", 150)] = fun _ => 3 / 2 := by
  have hc : List.filterMap (contrib tbl₀) [("rice", (150 : ℚ))] =
      [fun n => sampleVec n * (150 / 100)] := rfl
  funext n
  rw [totalsOf, hc, List.sum_cons, List.sum_nil]
  simp [sampleVec]
  norm_num

/-- Evaluation of the one-food fixture succeeds with the record r₀. -/
theorem fixture_eval : evaluate tbl₀ req₀ 60 [("rice", 150)] = Except.ok r₀ := by
  have hu : firstUnknown tbl₀ [("rice", (150 : ℚ))] = none := rfl
  have hd : deficitsOf (totalsOf tbl₀ [("rice", 150)]) (req₀ 60) = [] := by
    have h32 : ¬ ((3 : ℚ) / 2 < 0) := by norm_num
    simp [deficitsOf, Nutrient.all, req₀, fixture_totals, h32]
  unfold evaluate
  rw [hu]
  simp only [List.isEmpty_cons, Bool.false_eq_true, if_false]
  rw [hd, fixture_totals]
  rfl

/-- Witness for C1: the invariant applied to the concrete fixture
evaluation, whose hypothesis is discharged by computation. -/
theorem evaluate_deficits_invariant_witness :
    r₀.status = Status.Adequate ↔ r₀.deficits = [] :=
  (evaluate_deficits_invariant tbl₀ req₀ 60 [("rice", 150)] r₀ fixture_eval).2.2.1

/-- Claim C2: every food selected for a prediction request gets a grams
entry; a non-finite or non-positive entered gram value is normalized to
100 grams rather than rejected, and a finite strictly positive gram value
is passed through unchanged. -/
theorem handlePredict_grams_normalized (sel : List String)
    (gb : String → Option JSNum) (f : String) (hf : f ∈ sel) :
    (f, normalizeGram ((gb f).getD (JSNum.num 100))) ∈ handlePredictFoodGrams sel gb ∧
    (∀ j : JSNum, gb f = some j → (j.isFinite = false ∨ j.gtZero = false) →
      normalizeGram ((gb f).getD (JSNum.num 100)) = 100) ∧
    (∀ q : ℚ, gb f = some (JSNum.num q) → 0 < q →
      normalizeGram ((gb f).getD (JSNum.num 100)) = q) := by
  refine ⟨List.mem_map.mpr ⟨f, hf, rfl⟩, ?_, ?_⟩
  · intro j hj hcond
    rw [hj]
    rcases hcond with h | h <;> simp [normalizeGram, h]
  · intro q hq hpos
    rw [hq]
    simp [normalizeGram, JSNum.isFinite, JSNum.gtZero, JSNum.toRat, hpos]

/-- Witness for C2: NaN grams are normalized to 100 and finite positive
grams pass through, at concrete inputs. -/
theorem handlePredict_grams_normalized_witness :
    normalizeGram ((some JSNum.nan).getD (JSNum.num 100)) = 100 ∧
    normalizeGram ((some (JSNum.num 5)).getD (JSNum.num 100)) = 5 :=
  ⟨(handlePredict_grams_normalized ["rice"] (fun _ => some JSNum.nan) "rice"
      (by simp)).2.1 JSNum.nan rfl (Or.inl rfl),
   (handlePredict_grams_normalized ["rice"] (fun _ => some (JSNum.num 5)) "rice"
      (by simp)).2.2 5 rfl (by norm_num)⟩

/-- Claim C3: totals are invariant under any permutation of the
(food, grams) entries; evaluate itself is permutation-invariant whenever
every key resolves; and each entry contributes the food's per-100g
nutrient vector scaled by grams/100 to a plain vector sum. -/
theorem totals_perm_invariant (tbl : NutrientTable) (reqModel : ℚ → Nutrient → ℚ)
    (w : ℚ) (fg₁ fg₂ : List (String × ℚ)) (hperm : fg₁.Perm fg₂) :
    totalsOf tbl fg₁ = totalsOf tbl fg₂ ∧
    (firstUnknown tbl fg₁ = none →
      evaluate tbl reqModel w fg₁ = evaluate tbl reqModel w fg₂) ∧
    (∀ (f : String) (v : Nutrient → ℚ) (g : ℚ) (rest : List (String × ℚ)),
      lookupFood tbl f = some v →
      totalsOf tbl ((f, g) :: rest) = (fun n => v n * (g / 100)) + totalsOf tbl rest) := by
  have htot : totalsOf tbl fg₁ = totalsOf tbl fg₂ :=
    List.Perm.sum_eq (hperm.filterMap (contrib tbl))
  refine ⟨htot, ?_, ?_⟩
  · intro hu₁
    have hu₂ : firstUnknown tbl fg₂ = none := by
      rw [firstUnknown, Option.map_eq_none', List.find?_eq_none]
      rw [firstUnknown, Option.map_eq_none', List.find?_eq_none] at hu₁
      intro e he
      exact hu₁ e (hperm.mem_iff.mpr he)
    cases h₁ : fg₁ with
    | nil =>
      have h₂ : fg₂ = [] := (h₁ ▸ hperm).nil_eq.symm
      rw [h₂]
    | cons a l =>
      have h₂ : fg₂ ≠ [] := by
        intro hnil
        rw [h₁, hnil] at hperm
        exact absurd hperm.eq_nil (by simp)
      rw [← h₁]
      have he₁ : fg₁.isEmpty = false := by rw [h₁]; rfl
      have he₂ : fg₂.isEmpty = false := by
        cases fg₂ with
        | nil => exact absurd rfl h₂
        | cons b m => rfl
      unfold evaluate
      rw [he₁, he₂, hu₁, hu₂, htot]
  · intro f v g rest hl
    have hc : contrib tbl (f, g) = some (fun n => v n * (g / 100)) := by
      rw [contrib]
      simp [hl]
    rw [totalsOf, totalsOf, List.filterMap_cons, hc, List.sum_cons]

/-- Witness for C3: permutation invariance of totals at a concrete
two-entry selection. -/
theorem totals_perm_invariant_witness :
    totalsOf tbl₁ [("rice", 150), ("egg", 100)] =
      totalsOf tbl₁ [("egg", 100), ("rice", 150)] :=
  (totals_perm_invariant tbl₁ req₁ 60 [("rice", 150), ("egg", 100)]
    [("egg", 100), ("rice", 150)] (List.Perm.swap _ _ _)).1

/-- Claim C4: evaluate is deterministic and side-effect-free — two calls
with identical weight and identical food_grams yield identical outputs;
in this embedding it is a pure function of its arguments, with no hidden
state. -/
theorem evaluate_deterministic (tbl : NutrientTable) (reqModel : ℚ → Nutrient → ℚ)
    (w₁ w₂ : ℚ) (fg₁ fg₂ : List (String × ℚ)) (hw : w₁ = w₂) (hfg : fg₁ = fg₂) :
    evaluate tbl reqModel w₁ fg₁ = evaluate tbl reqModel w₂ fg₂ := by
  rw [hw, hfg]

/-- Witness for C4: determinism at a concrete call. -/
theorem evaluate_deterministic_witness :
    evaluate tbl₀ req₀ 60 [("rice", 150)] = evaluate tbl₀ req₀ 60 [("rice", 150)] :=
  evaluate_deterministic tbl₀ req₀ 60 60 [("rice", 150)] [("rice", 150)] rfl rfl

/-- Claim C5: whenever food_grams contains a key that does not resolve in
the Nutrient Table, evaluate fails with UnknownFood naming an offending
(unresolved, present) key, and never returns a successful record — the
entry is not silently skipped. -/
theorem evaluate_unknown_food (tbl : NutrientTable) (reqModel : ℚ → Nutrient → ℚ)
    (w : ℚ) (fg : List (String × ℚ)) (f : String) (g : ℚ)
    (hmem : (f, g) ∈ fg) (hnone : lookupFood tbl f = none) :
    ∃ fbad, evaluate tbl reqModel w fg = .error (.UnknownFood fbad) ∧
      lookupFood tbl fbad = none ∧ fbad ∈ fg.map Prod.fst ∧
      ∀ r : PredictionRecord, evaluate tbl reqModel w fg ≠ .ok r := by
  have hne : fg ≠ [] := by
    rintro rfl
    exact absurd hmem (List.not_mem_nil _)
  have he : fg.isEmpty = false := by
    cases fg with
    | nil => exact absurd rfl hne
    | cons a l => rfl
  cases hfind : fg.find? (fun e => (lookupFood tbl e.1).isNone) with
  | none =>
    rw [List.find?_eq_none] at hfind
    have : ¬ ((lookupFood tbl f).isNone = true) := hfind (f, g) hmem
    rw [hnone] at this
    exact absurd rfl this
  | some e =>
    have hpe : (lookupFood tbl e.1).isNone = true := by
      have := List.find?_some hfind
      simpa using this
    have hme : e ∈ fg := List.mem_of_find?_eq_some hfind
    have hu : firstUnknown tbl fg = some e.1 := by
      rw [firstUnknown, hfind]
      rfl
    refine ⟨e.1, ?_, Option.isNone_iff_eq_none.mp hpe, List.mem_map.mpr ⟨e, hme, rfl⟩, ?_⟩
    · unfold evaluate
      rw [he, hu]
      simp
    · intro r hr
      unfold evaluate at hr
      rw [he, hu] at hr
      exact absurd hr (by simp)

/-- Witness for C5: a selection naming the unknown food quinoa fails with
UnknownFood quinoa. -/
theorem evaluate_unknown_food_witness :
    evaluate tbl₀ req₀ 60 [("quinoa", 50)] = .error (.UnknownFood "quinoa") := by
  obtain ⟨fbad, heval, -, hmem, -⟩ :=
    evaluate_unknown_food tbl₀ req₀ 60 [("quinoa", 50)] "quinoa" 50 (by simp)
      (by rfl)
  have hb : fbad = "quinoa" := by simpa using hmem
  rw [hb] at heval
  exact heval

/-- Claim C6: the legacy POST /calculate route has semantics equivalent
to POST /predict on the same weight and food_grams, and the client uses
the /predict outcome whenever that call succeeds, falling back to the
/calculate outcome only when /predict fails. -/
theorem calculate_predict_equivalence (tbl : NutrientTable)
    (reqModel : ℚ → Nutrient → ℚ) (α : Type) :
    (∀ b : CalculateBody,
      calculateRoute tbl reqModel b = predictRoute tbl reqModel ⟨b.weight, b.food_grams⟩) ∧
    (∀ (d : α) (c : ApiOutcome α), clientPredictData (ApiOutcome.ok d) c = ApiOutcome.ok d) ∧
    (∀ c : ApiOutcome α, clientPredictData ApiOutcome.failed c = c) :=
  ⟨fun _ => rfl, fun _ _ => rfl, fun _ => rfl⟩

/-- Witness for C6: equivalence and fallback order at concrete values. -/
theorem calculate_predict_equivalence_witness :
    calculateRoute tbl₀ req₀ ⟨60, ["rice"], [("rice", 150)]⟩ =
      predictRoute tbl₀ req₀ ⟨60, [("rice", 150)]⟩ ∧
    clientPredictData (ApiOutcome.ok (1 : ℕ)) ApiOutcome.failed = ApiOutcome.ok 1 :=
  ⟨(calculate_predict_equivalence tbl₀ req₀ ℕ).1 ⟨60, ["rice"], [("rice", 150)]⟩,
   (calculate_predict_equivalence tbl₀ req₀ ℕ).2.1 1 ApiOutcome.failed⟩

/-- Claim C7: a history query returns only items of the queried owner
(never another user's items, whatever the kind filter and limit), ordered
newest first, truncated to the limit, filtered to a single kind when a
filter is supplied; the observed default limit is 50. -/
theorem queryHistory_owner_sorted_limited (store : List HistoryItem)
    (owner : String) (kf : Option HistKind) (limit : ℕ) :
    (∀ it ∈ queryHistory store owner kf limit, it.owner = owner) ∧
    (∀ other : String, other ≠ owner →
      ∀ it ∈ queryHistory store owner kf limit, it.owner ≠ other) ∧
    (∀ k, kf = some k → ∀ it ∈ queryHistory store owner kf limit, it.kind = k) ∧
    List.Pairwise histRel (queryHistory store owner kf limit) ∧
    (queryHistory store owner kf limit).length ≤ limit ∧
    queryHistoryDefault store owner kf = queryHistory store owner kf 50 := by
  have hmem : ∀ it ∈ queryHistory store owner kf limit,
      it ∈ store.filter (fun it => it.owner == owner && matchesKind kf it) := by
    intro it hit
    exact (List.perm_insertionSort histRel _).mem_iff.mp (List.mem_of_mem_take hit)
  have hpred : ∀ it ∈ queryHistory store owner kf limit,
      (it.owner == owner && matchesKind kf it) = true := by
    intro it hit
    exact (List.mem_filter.mp (hmem it hit)).2
  have howner : ∀ it ∈ queryHistory store owner kf limit, it.owner = owner := by
    intro it hit
    have h := hpred it hit
    rw [Bool.and_eq_true] at h
    exact beq_iff_eq.mp h.1
  refine ⟨howner, ?_, ?_, ?_, ?_, rfl⟩
  · intro other hother it hit
    rw [howner it hit]
    exact fun h => hother h.symm
  · intro k hk it hit
    have h := hpred it hit
    rw [Bool.and_eq_true] at h
    have h2 := h.2
    rw [hk] at h2
    exact beq_iff_eq.mp h2
  · exact List.Pairwise.sublist (List.take_sublist _ _)
      (List.sorted_insertionSort histRel _)
  · exact List.length_take_le _ _

/-- Witness for C7: owner exclusivity at a concrete two-user store. -/
theorem queryHistory_owner_sorted_limited_witness :
    ∀ it ∈ queryHistory
        [⟨"alice", HistKind.search, "q", 1⟩, ⟨"bob", HistKind.search, "r", 2⟩]
        "alice" none 50,
      it.owner = "alice" :=
  (queryHistory_owner_sorted_limited
    [⟨"alice", HistKind.search, "q", 1⟩, ⟨"bob", HistKind.search, "r", 2⟩]
    "alice" none 50).1

/-- Claim C8: with a Nutrient Table giving rice 2.7 g and egg 13 g of
protein per 100 g, evaluating weight 60 with rice 150 g and egg 100 g
totals 17.05 g of protein; if the protein requirement at weight 60 is
48 g, protein appears in the deficits with shortfall 30.95. -/
theorem evaluate_scenario (tbl : NutrientTable) (reqModel : ℚ → Nutrient → ℚ)
    (vr ve : Nutrient → ℚ)
    (hr : lookupFood tbl "rice" = some vr) (hrp : vr Nutrient.protein_g = 27 / 10)
    (he : lookupFood tbl "egg" = some ve) (hep : ve Nutrient.protein_g = 13) :
    totalsOf tbl [("rice", 150), ("egg", 100)] Nutrient.protein_g = 341 / 20 ∧
    evaluate tbl reqModel 60 [("rice", 150), ("egg", 100)] =
      Except.ok
        ⟨statusOf (deficitsOf (totalsOf tbl [("rice", 150), ("egg", 100)]) (reqModel 60)),
          totalsOf tbl [("rice", 150), ("egg", 100)], reqModel 60,
          deficitsOf (totalsOf tbl [("rice", 150), ("egg", 100)]) (reqModel 60)⟩ ∧
    (reqModel 60 Nutrient.protein_g = 48 →
      (Nutrient.protein_g, 619 / 20) ∈
        deficitsOf (totalsOf tbl [("rice", 150), ("egg", 100)]) (reqModel 60)) := by
  have hcr : contrib tbl ("rice", (150 : ℚ)) = some (fun n => vr n * (150 / 100)) := by
    rw [contrib]
    simp [hr]
  have hce : contrib tbl ("egg", (100 : ℚ)) = some (fun n => ve n * (100 / 100)) := by
    rw [contrib]
    simp [he]
  have htot : totalsOf tbl [("rice", 150), ("egg", 100)] Nutrient.protein_g = 341 / 20 := by
    rw [totalsOf, List.filterMap_cons, hcr, List.filterMap_cons, hce,
      List.filterMap_nil, List.sum_cons, List.sum_cons, List.sum_nil]
    show vr Nutrient.protein_g * (150 / 100) + (ve Nutrient.protein_g * (100 / 100) + 0) =
      341 / 20
    rw [hrp, hep]
    norm_num
  refine ⟨htot, ?_, ?_⟩
  · have hu : firstUnknown tbl [("rice", (150 : ℚ)), ("egg", 100)] = none := by
      rw [firstUnknown, Option.map_eq_none', List.find?_eq_none]
      intro e hme
      have hme' : e = ("rice", (150 : ℚ)) ∨ e = ("egg", (100 : ℚ)) := by
        simpa using hme
      rcases hme' with rfl | rfl
      · simp [hr]
      · simp [he]
    unfold evaluate
    rw [hu]
    rfl
  · intro hreq
    rw [mem_deficitsOf, htot, hreq]
    norm_num

/-- Witness for C8: the scenario at the concrete two-food table. -/
theorem evaluate_scenario_witness :
    totalsOf tbl₁ [("rice", 150), ("egg", 100)] Nutrient.protein_g = 341 / 20 ∧
    (Nutrient.protein_g, 619 / 20) ∈
      deficitsOf (totalsOf tbl₁ [("rice", 150), ("egg", 100)]) (req₁ 60) := by
  have h := evaluate_scenario tbl₁ req₁ riceVec eggVec rfl (by simp [riceVec]) rfl
    (by simp [eggVec])
  exact ⟨h.1, h.2.2 (by simp [req₁])⟩


/-- Claim C9: a search query is appended to history exactly when the
session is authenticated, the trimmed query has length at least 2, and
it differs case-insensitively from the most recently saved search; a
failed append is silently ignored (no surfaced error, last saved search
unchanged); the keydown handler only fires on Enter. -/
theorem saveSearch_conditions (isAuthed : Bool) (lastSavedSearch searchTerm : String)
    (postSucceeds : Bool) :
    ((saveSearchOnEnter isAuthed lastSavedSearch searchTerm postSucceeds).attempted = true ↔
      (isAuthed = true ∧ 2 ≤ (jsTrim searchTerm).length ∧
        jsToLower (jsTrim searchTerm) ≠ jsToLower lastSavedSearch)) ∧
    (saveSearchOnEnter isAuthed lastSavedSearch searchTerm postSucceeds).surfacedError =
      none ∧
    (postSucceeds = false →
      (saveSearchOnEnter isAuthed lastSavedSearch searchTerm postSucceeds).lastSaved =
        lastSavedSearch) ∧
    (∀ key : String, key ≠ "Enter" →
      (searchKeyDown key isAuthed lastSavedSearch searchTerm postSucceeds).attempted =
        false) := by
  refine ⟨?_, ?_, ?_, ?_⟩
  · cases isAuthed <;>
      by_cases hlen : (jsTrim searchTerm).length < 2 <;>
      by_cases heq : jsToLower (jsTrim searchTerm) = jsToLower lastSavedSearch <;>
      cases postSucceeds <;>
      simp [saveSearchOnEnter, hlen, heq] <;>
      omega
  · simp only [saveSearchOnEnter]
    split_ifs <;> rfl
  · intro hp
    subst hp
    simp only [saveSearchOnEnter]
    split_ifs <;> first | rfl | contradiction
  · intro key hk
    simp [searchKeyDown, hk]

/-- Witness for C9: an authenticated fresh query of length at least 2 is
appended; a one-letter query is not. -/
theorem saveSearch_conditions_witness :
    (saveSearchOnEnter true "" "rice" true).attempted = true ∧
    (saveSearchOnEnter true "" "r" true).attempted = false := by
  constructor
  · exact (saveSearch_conditions true "" "rice" true).1.mpr
      ⟨rfl, by decide, by decide⟩
  · have h := (saveSearch_conditions true "" "r" true).1
    cases ha : (saveSearchOnEnter true "" "r" true).attempted with
    | false => rfl
    | true => exact absurd (h.mp ha).2.1 (by decide)

/-- Claim C10: every selected food has a gramsByFood entry, and this
invariant is preserved by all four selection operations: toggling
initializes the grams to 100 exactly when absent and keeps an existing
value, removing deletes the entry, setting grams overwrites it, and
clearing resets both to empty. -/
theorem selection_invariant_preserved (s : DashState) (food : String) (g : JSNum)
    (h : SelInv s) :
    SelInv (toggleFoodSelection s food) ∧
    SelInv (removeSelected s food) ∧
    SelInv (setFoodGrams s food g) ∧
    SelInv clearSelection ∧
    (s.gramsByFood food = none →
      (toggleFoodSelection s food).gramsByFood food = some (JSNum.num 100)) ∧
    (∀ v, s.gramsByFood food = some v →
      (toggleFoodSelection s food).gramsByFood food = some v) ∧
    (removeSelected s food).gramsByFood food = none ∧
    clearSelection.selectedFoods = [] ∧
    (∀ f, clearSelection.gramsByFood f = none) := by
  have htg : (toggleFoodSelection s food).gramsByFood food =
      some ((s.gramsByFood food).getD (JSNum.num 100)) := by
    simp only [toggleFoodSelection]
    rw [if_pos trivial]
    cases s.gramsByFood food <;> rfl
  have htg' : ∀ f, f ≠ food →
      (toggleFoodSelection s food).gramsByFood f = s.gramsByFood f := by
    intro f hf
    simp only [toggleFoodSelection]
    rw [if_neg hf]
  have htm : ∀ f, f ∈ (toggleFoodSelection s food).selectedFoods →
      f ∈ s.selectedFoods ∨ f = food := by
    intro f hf
    simp only [toggleFoodSelection] at hf
    by_cases hmem : food ∈ s.selectedFoods
    · rw [if_pos hmem] at hf
      exact Or.inl (List.mem_filter.mp hf).1
    · rw [if_neg hmem] at hf
      rcases List.mem_append.mp hf with hf | hf
      · exact Or.inl hf
      · exact Or.inr (List.mem_singleton.mp hf)
  have hrg : (removeSelected s food).gramsByFood food = none := by
    simp only [removeSelected]
    rw [if_pos trivial]
  refine ⟨?_, ?_, ?_, ?_, ?_, ?_, hrg, rfl, fun _ => rfl⟩
  · intro f hf
    by_cases hff : f = food
    · subst hff
      rw [htg]
      rfl
    · rw [htg' f hff]
      rcases htm f hf with h1 | h1
      · exact h f h1
      · exact absurd h1 hff
  · intro f hf
    simp only [removeSelected] at hf
    have hf' := List.mem_filter.mp hf
    have hff : f ≠ food := by simpa using hf'.2
    show (if f = food then none else s.gramsByFood f).isSome = true
    rw [if_neg hff]
    exact h f hf'.1
  · intro f hf
    show (if f = food then some g else s.gramsByFood f).isSome = true
    by_cases hff : f = food
    · rw [if_pos hff]
      rfl
    · rw [if_neg hff]
      exact h f hf
  · intro f hf
    exact absurd hf (List.not_mem_nil f)
  · intro hnone
    rw [htg, hnone]
    rfl
  · intro v hv
    rw [htg, hv]
    rfl

/-- Witness for C10: preservation at a concrete one-food state. -/
theorem selection_invariant_preserved_witness :
    SelInv (toggleFoodSelection ⟨["rice"], fun f => if f = "rice"
      then some (JSNum.num 100) else none⟩ "egg") ∧
    SelInv clearSelection := by
  have h : SelInv ⟨["rice"], fun f => if f = "rice"
      then some (JSNum.num 100) else none⟩ := by
    intro f hf
    have hfr : f = "rice" := by simpa using hf
    subst hfr
    simp
  exact ⟨(selection_invariant_preserved _ "egg" (JSNum.num 1) h).1,
    (selection_invariant_preserved _ "egg" (JSNum.num 1) h).2.2.2.1⟩
